import Mathlib

/-!
Verification of the 3D-captcha simulation/capture/replay pipeline.

The development shallowly embeds the core logic of the ThreeCaptcha
component: coordinate normalization, the fixed-rate recorder, the
replayer, object placement, the CSV exporter and the verification
adapter.  JavaScript numbers are modelled by exact rationals (ℚ); the
floating-point tolerances in the stated properties are then trivially
met by exact equalities.  `Math.sqrt(a) < b` comparisons (with `b ≥ 0`)
are embedded as the equivalent `a < b ^ 2`.
-/

namespace Captcha

/-- A 3-component vector (Three.js `Vector3`). -/
structure Vec3 where
  x : ℚ
  y : ℚ
  z : ℚ
deriving Repr, DecidableEq

/-- A quaternion (Three.js `Quaternion` / Rapier rotation). -/
structure Quat where
  x : ℚ
  y : ℚ
  z : ℚ
  w : ℚ
deriving Repr, DecidableEq

/-- Constant `ROBOT_ARM_Y = 0.3` from the source. -/
def ROBOT_ARM_Y : ℚ := 0.3

/-- Embedding of `normalizeCoordinates(x, y, z)`: affine map from the simulation table
(x, z ∈ [-3, 3]) to the physical frame (x ∈ [0.2, 0.40], y ∈ [-0.20, 0.20]),
with the outputs clamped into the physical rectangle exactly as in the
source (`Math.max(0.2, Math.min(0.40, normalizedX))` and the analogue
for y).  The simulation `y` input is unused, as in the source. -/
def normalizeCoordinates (x _y z : ℚ) : ℚ × ℚ :=
  let normalizedX := 0.2 + ((x + 3) / 6) * (0.40 - 0.2)
  let normalizedY := -0.20 + ((z + 3) / 6) * (0.20 - (-0.20))
  (max 0.2 (min 0.40 normalizedX), max (-0.20) (min 0.20 normalizedY))

/-- Embedding of `denormalizeCoordinates(normalizedX, normalizedY)`: the inverse affine
map back to simulation coordinates, with no clamping, as in the source. -/
def denormalizeCoordinates (normalizedX normalizedY : ℚ) : ℚ × ℚ :=
  let threeX := ((normalizedX - 0.2) / (0.40 - 0.2)) * 6 - 3
  let threeZ := ((normalizedY - (-0.20)) / (0.20 - (-0.20))) * 6 - 3
  (threeX, threeZ)

/-- One scene object: visual mesh pose and physics body pose
(`objectsRef.current[i].mesh` / `.body`). -/
structure SceneObject where
  meshPos : Vec3
  meshQuat : Quat
  bodyPos : Vec3
  bodyQuat : Quat
deriving Repr, DecidableEq

/-- One recorded object state inside a frame: normalized position with the
fixed z component, and the stored rotation quaternion. -/
structure FrameObject where
  position : Vec3
  rotation : Quat
deriving Repr, DecidableEq

/-- One recorded frame (`recordingDataRef.current[i]`). -/
structure Frame where
  timestamp : ℚ
  robotArm : Vec3
  objects : List FrameObject
deriving Repr, DecidableEq

/-- The mutable state of the component that the recording / replay logic
touches: the React state flags together with the refs.  `robotArm` is an
`Option` because `robotArmRef.current` is null before physics init;
`objectsRef.current` is initialized to an array, hence a plain list.
`worldPresent` models `worldRef.current !== null`. -/
structure CaptchaState where
  isRecording : Bool
  isReplaying : Bool
  hasRecording : Bool
  recordingData : List Frame
  frameCount : Nat
  recordingStartTime : ℚ
  replayStartTime : ℚ
  robotArm : Option Vec3
  objects : List SceneObject
  worldPresent : Bool
deriving Repr, DecidableEq

/-- Embedding of `startRecording()`: rejected while replaying; otherwise clears the
buffer, resets the frame counter, stores the start time and raises the
recording flag (the `setInterval` handle is not part of the model). -/
def startRecording (now : ℚ) (s : CaptchaState) : CaptchaState :=
  if s.isReplaying then s
  else
    { s with
      recordingData := []
      frameCount := 0
      recordingStartTime := now
      isRecording := true }

/-- Embedding of `stopRecording()`: lowers the recording flag and sets `hasRecording`
according to whether any frames were captured. -/
def stopRecording (s : CaptchaState) : CaptchaState :=
  { s with
    isRecording := false
    hasRecording := decide (0 < s.recordingData.length) }

/-- Embedding of `startReplay()`: rejected when there is no recording or recording is
active; otherwise captures the start time and raises the replay flag. -/
def startReplay (now : ℚ) (s : CaptchaState) : CaptchaState :=
  if !s.hasRecording || s.isRecording then s
  else
    { s with
      replayStartTime := now
      isReplaying := true }

/-- Embedding of `stopReplay()`: lowers the replay flag. -/
def stopReplay (s : CaptchaState) : CaptchaState :=
  { s with isReplaying := false }

/-- Embedding of `recordFixedFrame()`: when the robot-arm ref is present, appends one
frame whose timestamp is `frameCount * (1000 / 10)` and increments the
frame counter.  The robot-arm position and every object mesh position are
normalized; the recorded z components are the fixed 0.76; the stored
object rotation swaps the quaternion's y and z channels, exactly as in
the source. -/
def recordFixedFrame (s : CaptchaState) : CaptchaState :=
  match s.robotArm with
  | none => s
  | some robotPos =>
    let fixedTimestamp : ℚ := (s.frameCount : ℚ) * (1000 / 10)
    let normalizedRobotPos := normalizeCoordinates robotPos.x robotPos.y robotPos.z
    let objectStates := s.objects.map fun obj =>
      let normalizedObjPos :=
        normalizeCoordinates obj.meshPos.x obj.meshPos.y obj.meshPos.z
      { position := ⟨normalizedObjPos.1, normalizedObjPos.2, 0.76⟩
        rotation :=
          ⟨obj.meshQuat.x, obj.meshQuat.z, obj.meshQuat.y, obj.meshQuat.w⟩ :
        FrameObject }
    { s with
      recordingData := s.recordingData ++
        [⟨fixedTimestamp, ⟨normalizedRobotPos.1, normalizedRobotPos.2, 0.76⟩,
          objectStates⟩]
      frameCount := s.frameCount + 1 }

/-- Harness for a recording session: between interval ticks the physics
moves the scene, modelled by installing an externally chosen scene
snapshot before each `recordFixedFrame` call. -/
def recordSession (ticks : List (Option Vec3 × List SceneObject))
    (s : CaptchaState) : CaptchaState :=
  ticks.foldl
    (fun st t => recordFixedFrame { st with robotArm := t.1, objects := t.2 }) s

/-- The frame lookup of `replayFrame`:
`recordingDataRef.current.find(f => f.timestamp >= currentTime)` —
the first frame in buffer order whose timestamp is ≥ the elapsed time. -/
def replayLookup (data : List Frame) (currentTime : ℚ) : Option Frame :=
  data.find? fun f => decide (currentTime ≤ f.timestamp)

/-- Pose imposition of `replayFrame` for one object: denormalize the
stored position, use the fixed settle height 0.375, swap the stored
quaternion's y and z channels back, and write mesh and body alike. -/
def imposeObject (objState : FrameObject) (_obj : SceneObject) : SceneObject :=
  let objThreePos := denormalizeCoordinates objState.position.x objState.position.y
  let actualHeight : ℚ := 0.375
  let q : Quat :=
    ⟨objState.rotation.x, objState.rotation.z, objState.rotation.y,
     objState.rotation.w⟩
  { meshPos := ⟨objThreePos.1, actualHeight, objThreePos.2⟩
    meshQuat := q
    bodyPos := ⟨objThreePos.1, actualHeight, objThreePos.2⟩
    bodyQuat := q }

/-- Embedding of `replayFrame()`: returns immediately unless replaying with the scene
refs present; otherwise looks up the first frame with timestamp ≥
elapsed and imposes its poses on the arm and on each object (mesh and
body); when no frame matches and the elapsed time exceeds the last
frame's timestamp, stops the replay. -/
def replayFrame (now : ℚ) (s : CaptchaState) : CaptchaState :=
  if !s.isReplaying then s
  else
    match s.robotArm with
    | none => s
    | some _ =>
      let currentTime := now - s.replayStartTime
      match replayLookup s.recordingData currentTime with
      | some frame =>
        let robotArmThreePos :=
          denormalizeCoordinates frame.robotArm.x frame.robotArm.y
        { s with
          robotArm := some ⟨robotArmThreePos.1, ROBOT_ARM_Y, robotArmThreePos.2⟩
          objects := s.objects.mapIdx fun index obj =>
            match frame.objects[index]? with
            | some objState => imposeObject objState obj
            | none => obj }
      | none =>
        match s.recordingData.getLast? with
        | some lastFrame =>
          if lastFrame.timestamp < currentTime then stopReplay s else s
        | none => s

/-- The visual sync of the animation loop's non-replay branch: every
object mesh copies its physics body pose. -/
def syncMeshes (s : CaptchaState) : CaptchaState :=
  { s with
    objects := s.objects.map fun obj =>
      { obj with meshPos := obj.bodyPos, meshQuat := obj.bodyQuat } }

/-- Whether a `replayFrame` call at time `now` imposes a frame's poses. -/
def replayImposes (now : ℚ) (s : CaptchaState) : Bool :=
  s.isReplaying && s.robotArm.isSome &&
    (replayLookup s.recordingData (now - s.replayStartTime)).isSome

/-- The observable actions of one animation tick. -/
structure TickActions where
  stepped : Bool
  imposed : Bool
  synced : Bool
deriving Repr, DecidableEq

/-- One iteration of `animate()`: step the physics world only when a world
exists and replay is inactive (`worldRef.current && !isReplayingRef.current`),
then either run `replayFrame` (replaying) or sync meshes from bodies
(normal mode).  The physics integration itself is an abstract parameter
`physStep` acting on the bodies. -/
def animate (physStep : List SceneObject → List SceneObject) (now : ℚ)
    (s : CaptchaState) : CaptchaState × TickActions :=
  let doStep := s.worldPresent && !s.isReplaying
  let s1 := if doStep then { s with objects := physStep s.objects } else s
  if s1.isReplaying then
    (replayFrame now s1, ⟨doStep, replayImposes now s1, false⟩)
  else
    (syncMeshes s1, ⟨doStep, false, true⟩)

/-- An entry of the `occupiedPositions` array of the placement loop. -/
structure OccupiedPosition where
  x : ℚ
  z : ℚ
  radius : ℚ
deriving Repr, DecidableEq

/-- Constant `numObjects = 3` from the source. -/
def numObjects : Nat := 3

/-- Cube edge `size = 0.75` from the source. -/
def objectSize : ℚ := 0.75

/-- Constant `objectRadius = size * 1.2` from the source. -/
def objectRadius : ℚ := objectSize * 1.2

/-- Constant `maxAttempts = 100` from the source. -/
def maxAttempts : Nat := 100

/-- The robot arm's clearance radius 0.45 used by `isPositionValid`. -/
def robotArmRadius : ℚ := 0.45

/-- Embedding of `isPositionValid(x, z, radius)`: a candidate is rejected when it is
closer to the arm (at the origin) than `robotArmRadius + radius + 0.5`,
or closer to a previously accepted object than
`radius * 4 + pos.radius * 2`.  The source compares `Math.sqrt(d) < m`
with `m ≥ 0`; this embedding compares the equivalent `d < m ^ 2`. -/
def isPositionValid (occupiedPositions : List OccupiedPosition)
    (x z radius : ℚ) : Bool :=
  let minDistance := radius * 4
  let distSqFromRobotArm := (x - 0) ^ 2 + (z - 0) ^ 2
  let minDistanceFromRobotArm := robotArmRadius + radius + 0.5
  if distSqFromRobotArm < minDistanceFromRobotArm ^ 2 then false
  else
    occupiedPositions.all fun pos =>
      !((x - pos.x) ^ 2 + (z - pos.z) ^ 2 <
        (minDistance + pos.radius * 2) ^ 2)

/-- Computes `Math.ceil(Math.sqrt(n))` for a natural number (`Nat.sqrt` is the
floor of the square root). -/
def ceilSqrt (n : Nat) : Nat :=
  if Nat.sqrt n * Nat.sqrt n = n then Nat.sqrt n else Nat.sqrt n + 1

/-- The deterministic grid fallback position for
`gridIndex = occupiedPositions.length`:
`((gridIndex % gridSize) - gridSize / 2, floor(gridIndex / gridSize)
- gridSize / 2)` scaled by the 1.2 grid spacing. -/
def gridFallbackPosition (gridIndex : Nat) : ℚ × ℚ :=
  let gridSize := ceilSqrt numObjects
  let gridX : ℚ := ((gridIndex % gridSize : Nat) : ℚ) - (gridSize : ℚ) / 2
  let gridZ : ℚ := ((gridIndex / gridSize : Nat) : ℚ) - (gridSize : ℚ) / 2
  (gridX * 1.2, gridZ * 1.2)

/-- One sampled candidate from a pair of `Math.random()` draws:
`(Math.random() - 0.5) * 3.5` for x and for z. -/
def sampleCandidate (r : ℚ × ℚ) : ℚ × ℚ :=
  ((r.1 - 0.5) * 3.5, (r.2 - 0.5) * 3.5)

/-- The do-while sampling loop for one object.  Attempt `k` consumes the
draw `rand k`; after the draw the attempt counter is `k + 1`, and the
loop continues only while the candidate is invalid and the counter is
below `maxAttempts`.  Returns the final candidate and the final counter;
`fuel` is the remaining attempt budget (`maxAttempts` at the top call,
making the base case unreachable). -/
def placementAttempts (rand : Nat → ℚ × ℚ)
    (occ : List OccupiedPosition) (radius : ℚ) :
    Nat → Nat → (ℚ × ℚ) × Nat
  | k, 0 => (sampleCandidate (rand k), k + 1)
  | k, fuel + 1 =>
    let c := sampleCandidate (rand k)
    if isPositionValid occ c.1 c.2 radius || decide (maxAttempts ≤ k + 1) then
      (c, k + 1)
    else placementAttempts rand occ radius (k + 1) fuel

/-- Placement of one object: run the sampling loop and, when the attempt
counter reached `maxAttempts`, replace the candidate by the grid
fallback at `gridIndex = occupiedPositions.length`. -/
def placeObject (rand : Nat → ℚ × ℚ) (occ : List OccupiedPosition)
    (radius : ℚ) : ℚ × ℚ :=
  let r := placementAttempts rand occ radius 0 maxAttempts
  if maxAttempts ≤ r.2 then gridFallbackPosition occ.length else r.1

/-- The placement loop of `initPhysics`: place `numObjects` objects of
clearance radius `objectRadius`, pushing each accepted position onto
`occupiedPositions`.  `Math.random()` is modelled as an oracle indexed
by object number and attempt number. -/
def initPlacement (rand : Nat → Nat → ℚ × ℚ) : List OccupiedPosition :=
  (List.range numObjects).foldl
    (fun occ i =>
      let p := placeObject (rand i) occ objectRadius
      occ ++ [⟨p.1, p.2, objectRadius⟩])
    []

/-- The C5 clearance property as claimed: every pair of placed objects
has center distance at least the combined clearance radii, and every
placed object's clearance disk avoids the end-effector's clearance disk
(the arm sits at the origin with radius 0.45).  Distances are compared
squared. -/
def clearanceProp (placed : List OccupiedPosition) : Prop :=
  placed.Pairwise (fun p q =>
    (p.radius + q.radius) ^ 2 ≤ (p.x - q.x) ^ 2 + (p.z - q.z) ^ 2) ∧
  ∀ p ∈ placed, (robotArmRadius + p.radius) ^ 2 ≤ p.x ^ 2 + p.z ^ 2

/-- A random oracle whose draws are all (0.5, 0.5), i.e. every sampled
candidate is the origin — directly on the robot arm, hence always
rejected. -/
def centerRand : Nat → Nat → ℚ × ℚ := fun _ _ => (0.5, 0.5)

/-- The characters of a natural number in base 10, most significant
digit first, padded to exactly `d` digits (the low `d` digits of `n`). -/
def natDigitsPadded : Nat → Nat → List Char
  | 0, _ => []
  | d + 1, n => natDigitsPadded d (n / 10) ++ [Nat.digitChar (n % 10)]

/-- The decimal digit characters of a natural number, most significant
digit first. -/
def natChars (n : Nat) : List Char :=
  if _h : n < 10 then [Nat.digitChar n]
  else natChars (n / 10) ++ [Nat.digitChar (n % 10)]
decreasing_by exact Nat.div_lt_self (by omega) (by omega)

/-- Embedding of `Number.prototype.toFixed(d)` on the rational model: round
`q * 10 ^ d` to the nearest integer and print sign, integer digits, a
point, and exactly `d` fractional digits. -/
def jsToFixed (q : ℚ) (d : Nat) : String :=
  let r : ℤ := round (q * 10 ^ d)
  let sgn : List Char := if r < 0 then ['-'] else []
  let ip : Nat := r.natAbs / 10 ^ d
  let fp : Nat := r.natAbs % 10 ^ d
  ⟨sgn ++ natChars ip ++ '.' :: natDigitsPadded d fp⟩

/-- The CSV header built exactly as in `saveRecordingAsCSV`: the base
columns, then per object a position column group and a rotation column
group appended in turn. -/
def csvHeader (objectCount : Nat) : String :=
  (List.range objectCount).foldl
    (fun h i =>
      h ++ ",Object" ++ toString (i + 1) ++ "_Pos_X,Object"
        ++ toString (i + 1) ++ "_Pos_Y,Object" ++ toString (i + 1) ++ "_Pos_Z"
        ++ ",Object" ++ toString (i + 1) ++ "_Rot_X,Object"
        ++ toString (i + 1) ++ "_Rot_Y,Object" ++ toString (i + 1)
        ++ "_Rot_Z,Object" ++ toString (i + 1) ++ "_Rot_W")
    "Timestamp,RobotArm_X,RobotArm_Y,RobotArm_Z"

/-- One CSV data row built exactly as in `saveRecordingAsCSV`: the
timestamp with 3 fixed decimals and the arm coordinates with 6, then per
object its position and rotation fields with 6, appended in turn. -/
def csvRowOfFrame (frame : Frame) : String :=
  frame.objects.foldl
    (fun row obj =>
      row ++ "," ++ jsToFixed obj.position.x 6 ++ ","
        ++ jsToFixed obj.position.y 6 ++ "," ++ jsToFixed obj.position.z 6
        ++ "," ++ jsToFixed obj.rotation.x 6 ++ ","
        ++ jsToFixed obj.rotation.y 6 ++ "," ++ jsToFixed obj.rotation.z 6
        ++ "," ++ jsToFixed obj.rotation.w 6)
    (jsToFixed frame.timestamp 3 ++ "," ++ jsToFixed frame.robotArm.x 6
      ++ "," ++ jsToFixed frame.robotArm.y 6 ++ ","
      ++ jsToFixed frame.robotArm.z 6)

/-- The CSV text for a (non-empty) buffer: header from the first frame's
object count, then one row per frame, joined by newlines
(`[csvHeader, ...csvRows].join(newline)`). -/
def csvContent (frames : List Frame) : String :=
  let objectCount := ((frames.head?).map fun f => f.objects.length).getD 0
  String.intercalate "\n" (csvHeader objectCount :: frames.map csvRowOfFrame)

/-- Embedding of `saveRecordingAsCSV()`: no file without a recording; otherwise the
CSV text. -/
def saveRecordingAsCSV (s : CaptchaState) : Option String :=
  if !s.hasRecording || s.recordingData.length == 0 then none
  else some (csvContent s.recordingData)

/-- The seven CSV fields contributed by one recorded object state. -/
def objFields (obj : FrameObject) : List String :=
  [jsToFixed obj.position.x 6, jsToFixed obj.position.y 6,
   jsToFixed obj.position.z 6, jsToFixed obj.rotation.x 6,
   jsToFixed obj.rotation.y 6, jsToFixed obj.rotation.z 6,
   jsToFixed obj.rotation.w 6]

/-- The field list of one CSV row: the timestamp with 3 fixed decimals,
then the arm coordinates and every object's position and rotation
components with 6. -/
def frameFields (frame : Frame) : List String :=
  jsToFixed frame.timestamp 3 ::
    ([jsToFixed frame.robotArm.x 6, jsToFixed frame.robotArm.y 6,
      jsToFixed frame.robotArm.z 6] ++ (frame.objects.map objFields).flatten)

/-- Number of characters after the last point of a string — its fixed
decimal digit count when a point is present. -/
def decCount (s : String) : Nat :=
  (s.data.reverse.takeWhile fun c => c != '.').length

/-- The string carries a decimal point. -/
def hasPoint (s : String) : Prop := '.' ∈ s.data

/-- Modelled from the spec: the header row the specification claims,
`Timestamp, EndEffector_X/Y/Z, Object{i}_Pos_X/Y/Z, Object{i}_Rot_X/Y/Z/W`
for i = 1..N, as comma-separated column names. -/
def specCsvHeader (objectCount : Nat) : String :=
  (List.range objectCount).foldl
    (fun h i =>
      h ++ ",Object" ++ toString (i + 1) ++ "_Pos_X,Object"
        ++ toString (i + 1) ++ "_Pos_Y,Object" ++ toString (i + 1) ++ "_Pos_Z"
        ++ ",Object" ++ toString (i + 1) ++ "_Rot_X,Object"
        ++ toString (i + 1) ++ "_Rot_Y,Object" ++ toString (i + 1)
        ++ "_Rot_Z,Object" ++ toString (i + 1) ++ "_Rot_W")
    "Timestamp,EndEffector_X,EndEffector_Y,EndEffector_Z"

/-- The corrected CSV serialization property: the export is the header
line (with the `RobotArm` column naming) followed by exactly one row per
frame; each row is its field list joined by commas; each field carries a
decimal point with 3 to 6 fixed fractional digits. -/
def csvSpecProp (frames : List Frame) (objectCount : Nat) : Prop :=
  csvContent frames =
      String.intercalate "\n"
        (csvHeader objectCount :: frames.map csvRowOfFrame) ∧
  ∀ frame ∈ frames,
    csvRowOfFrame frame = String.intercalate "," (frameFields frame) ∧
    (frameFields frame).length = 4 + 7 * objectCount ∧
    ∀ field ∈ frameFields frame,
      hasPoint field ∧ 3 ≤ decCount field ∧ decCount field ≤ 6

/-- ASCII uppercase of one character — the fragment of
`String.prototype.toUpperCase` exercised by the adapter. -/
def upperChar (c : Char) : Char :=
  if 97 ≤ c.toNat ∧ c.toNat ≤ 122 then Char.ofNat (c.toNat - 32) else c

/-- ASCII uppercase of a string, character by character. -/
def asciiToUpper (s : String) : String := ⟨s.data.map upperChar⟩

/-- Whether `needle` occurs at the head of `hay`. -/
def charsStartWith : List Char → List Char → Bool
  | [], _ => true
  | _ :: _, [] => false
  | a :: as, b :: bs => a == b && charsStartWith as bs

/-- Whether `needle` occurs contiguously anywhere in `hay`. -/
def charsContain (needle : List Char) : List Char → Bool
  | [] => needle.isEmpty
  | b :: bs => charsStartWith needle (b :: bs) || charsContain needle bs

/-- Embedding of `hay.includes(needle)`. -/
def strIncludes (hay needle : String) : Bool :=
  charsContain needle.data hay.data

/-- The verification response as far as the adapter's decision is
concerned: the HTTP ok flag and the candidate text
`data.candidates?.[0]?.content?.parts?.[0]?.text` when present. -/
structure GeminiResponse where
  ok : Bool
  candidateText : Option String
deriving Repr, DecidableEq

/-- The boolean the adapter hands to `onVerify`: a failed fetch or JSON
parse throws and is caught (false), a non-ok response throws into the
same catch (false); otherwise the candidate text (defaulted to the empty
string, uppercased) must contain "VERIFIED" but not "NOT_VERIFIED". -/
def geminiOutcome : Except String GeminiResponse → Bool
  | .error _ => false
  | .ok resp =>
    if !resp.ok then false
    else
      let result := resp.candidateText.getD ""
      strIncludes (asciiToUpper result) "VERIFIED" &&
        !(strIncludes (asciiToUpper result) "NOT_VERIFIED")

/-- A concrete recorded object state used in concrete evaluations. -/
def exFrameObject (k : ℚ) : FrameObject :=
  ⟨⟨0.3 + k / 100, -0.1 + k / 100, 0.76⟩, ⟨0, 0, k / 10, 1⟩⟩

/-- A concrete recorded frame with three objects. -/
def exFrame : Frame :=
  ⟨0, ⟨0.25, 0.05, 0.76⟩, [exFrameObject 1, exFrameObject 2, exFrameObject 3]⟩

/-- A concrete one-frame buffer. -/
def exFrames : List Frame := [exFrame]

/-- A concrete scene object used in witnesses. -/
def exSceneObject : SceneObject :=
  ⟨⟨1, 0.375, -1⟩, ⟨0.1, 0.2, 0.3, 0.9⟩, ⟨1, 0.375, -1⟩, ⟨0.1, 0.2, 0.3, 0.9⟩⟩

/-- A concrete component state used in witnesses. -/
def exState : CaptchaState :=
  { isRecording := false
    isReplaying := false
    hasRecording := false
    recordingData := []
    frameCount := 0
    recordingStartTime := 0
    replayStartTime := 0
    robotArm := some ⟨1, 0.3, 2⟩
    objects := [exSceneObject]
    worldPresent := true }

/-- A concrete recorded frame with no objects and a given timestamp. -/
def exReplayFrame (t : ℚ) : Frame := ⟨t, ⟨0.3, 0, 0.76⟩, []⟩

/-- A concrete time-ordered buffer with frames at t = 0, 100, 200 ms. -/
def exReplayData : List Frame :=
  [exReplayFrame 0, exReplayFrame 100, exReplayFrame 200]

/-- A concrete replaying state over `exReplayData`. -/
def exReplayState : CaptchaState :=
  { exState with
    isReplaying := true
    hasRecording := true
    recordingData := exReplayData }

/-- The recorder invariant: the frame counter equals the buffer length
and the i-th buffered frame carries timestamp i * 100 ms. -/
def recInv (s : CaptchaState) : Prop :=
  s.frameCount = s.recordingData.length ∧
  ∀ i (hi : i < s.recordingData.length),
    (s.recordingData.get ⟨i, hi⟩).timestamp = (i : ℚ) * 100

end Captcha

open Captcha

/-- C1: round-trip of the coordinate normalizer.  For every simulation
point (x, z) with x ∈ [-3, 3] and z ∈ [-3, 3], `denormalizeCoordinates`
applied to the pair returned by `normalizeCoordinates x y z` yields
(x, z) again, exactly in the rational model and hence within the
floating-point tolerance 1e-6. -/
theorem C1_normalize_roundtrip (x y z : ℚ)
    (hx1 : -3 ≤ x) (hx2 : x ≤ 3) (hz1 : -3 ≤ z) (hz2 : z ≤ 3) :
    |(denormalizeCoordinates (normalizeCoordinates x y z).1
        (normalizeCoordinates x y z).2).1 - x| ≤ 1 / 1000000 ∧
    |(denormalizeCoordinates (normalizeCoordinates x y z).1
        (normalizeCoordinates x y z).2).2 - z| ≤ 1 / 1000000 := by
  have hnx : normalizeCoordinates x y z =
      (0.2 + ((x + 3) / 6) * (0.40 - 0.2),
       -0.20 + ((z + 3) / 6) * (0.20 - (-0.20))) := by
    unfold normalizeCoordinates
    have h1 : (0.2 + ((x + 3) / 6) * (0.40 - 0.2) : ℚ) ≤ 0.40 := by nlinarith
    have h2 : (0.2 : ℚ) ≤ 0.2 + ((x + 3) / 6) * (0.40 - 0.2) := by nlinarith
    have h3 : (-0.20 + ((z + 3) / 6) * (0.20 - (-0.20)) : ℚ) ≤ 0.20 := by nlinarith
    have h4 : (-0.20 : ℚ) ≤ -0.20 + ((z + 3) / 6) * (0.20 - (-0.20)) := by nlinarith
    simp only [min_eq_right h1, max_eq_right h2, min_eq_right h3, max_eq_right h4]
  rw [hnx]
  unfold denormalizeCoordinates
  constructor
  · have : (((0.2 + ((x + 3) / 6) * (0.40 - 0.2)) - 0.2) / (0.40 - 0.2)) * 6 - 3 - x = 0 := by
      ring
    rw [this]
    norm_num
  · have : (((-0.20 + ((z + 3) / 6) * (0.20 - (-0.20))) - (-0.20)) /
        (0.20 - (-0.20))) * 6 - 3 - z = 0 := by
      ring
    rw [this]
    norm_num

/-- Witness for C1 at the concrete simulation point (1, 2). -/
theorem C1_normalize_roundtrip_witness :
    ((-3 : ℚ) ≤ 1 ∧ (1 : ℚ) ≤ 3 ∧ (-3 : ℚ) ≤ 2 ∧ (2 : ℚ) ≤ 3) ∧
    (|(denormalizeCoordinates (normalizeCoordinates 1 0.3 2).1
        (normalizeCoordinates 1 0.3 2).2).1 - 1| ≤ 1 / 1000000 ∧
     |(denormalizeCoordinates (normalizeCoordinates 1 0.3 2).1
        (normalizeCoordinates 1 0.3 2).2).2 - 2| ≤ 1 / 1000000) :=
  ⟨by norm_num,
   C1_normalize_roundtrip 1 0.3 2 (by norm_num) (by norm_num) (by norm_num) (by norm_num)⟩

/-- The transition `recordFixedFrame` preserves the recorder invariant. -/
theorem recInv_recordFixedFrame (s : CaptchaState) (h : recInv s) :
    recInv (recordFixedFrame s) := by
  obtain ⟨hc, ht⟩ := h
  cases harm : s.robotArm with
  | none => simp only [recordFixedFrame, harm]; exact ⟨hc, ht⟩
  | some pos =>
    simp only [recordFixedFrame, harm]
    constructor
    · simp [hc]
    · intro i hi
      simp only [List.get_eq_getElem]
      simp only [List.length_append, List.length_singleton] at hi
      rcases Nat.lt_or_ge i s.recordingData.length with hlt | hge
      · rw [List.getElem_append_left hlt]
        simpa using ht i hlt
      · have hieq : i = s.recordingData.length := by omega
        rw [List.getElem_concat_length _ _ _ hieq]
        simp only [hc, hieq]
        ring

/-- Swapping in a fresh scene snapshot does not touch the buffer or the
frame counter, hence preserves the recorder invariant. -/
theorem recInv_setScene (s : CaptchaState) (a : Option Vec3)
    (os : List SceneObject) (h : recInv s) :
    recInv { s with robotArm := a, objects := os } := h

/-- A whole recording session preserves the recorder invariant. -/
theorem recInv_recordSession (ticks : List (Option Vec3 × List SceneObject))
    (s : CaptchaState) (h : recInv s) : recInv (recordSession ticks s) := by
  induction ticks generalizing s with
  | nil => exact h
  | cons t ts ih =>
    have h1 : recordSession (t :: ts) s =
        recordSession ts
          (recordFixedFrame { s with robotArm := t.1, objects := t.2 }) := rfl
    rw [h1]
    exact ih _ (recInv_recordFixedFrame _ (recInv_setScene _ _ _ h))

/-- C2: while not replaying, `startRecording` clears the buffer and
resets the frame counter to 0, and after any session of
`recordFixedFrame` ticks the i-th recorded frame (counting from 0)
carries timestamp exactly i * 100 ms — so timestamps start at 0, are
strictly increasing, and sit exactly one 100 ms period apart,
independent of wall-clock jitter. -/
theorem C2_fixed_rate_timestamps (s : CaptchaState) (t : ℚ)
    (ticks : List (Option Vec3 × List SceneObject))
    (h : s.isReplaying = false) :
    (startRecording t s).recordingData = [] ∧
    (startRecording t s).frameCount = 0 ∧
    ∀ i (hi : i < (recordSession ticks (startRecording t s)).recordingData.length),
      ((recordSession ticks (startRecording t s)).recordingData.get
        ⟨i, hi⟩).timestamp = (i : ℚ) * 100 := by
  have hs : startRecording t s =
      { s with
        recordingData := []
        frameCount := 0
        recordingStartTime := t
        isRecording := true } := by
    simp [startRecording, h]
  have hinv : recInv (startRecording t s) := by
    rw [hs]
    exact ⟨rfl, fun i hi => by simp at hi⟩
  exact ⟨by rw [hs], by rw [hs], (recInv_recordSession _ _ hinv).2⟩

/-- Witness for C2: a two-tick session from the concrete idle state. -/
theorem C2_fixed_rate_timestamps_witness :
    exState.isReplaying = false ∧
    ((startRecording 0 exState).recordingData = [] ∧
     (startRecording 0 exState).frameCount = 0 ∧
     ∀ i (hi : i < (recordSession [(some ⟨1, 0.3, 2⟩, [exSceneObject]), (none, [])]
          (startRecording 0 exState)).recordingData.length),
       ((recordSession [(some ⟨1, 0.3, 2⟩, [exSceneObject]), (none, [])]
          (startRecording 0 exState)).recordingData.get ⟨i, hi⟩).timestamp
         = (i : ℚ) * 100) :=
  ⟨rfl, C2_fixed_rate_timestamps exState 0
    [(some ⟨1, 0.3, 2⟩, [exSceneObject]), (none, [])] rfl⟩

/-- The lookup `List.find?` returns the first element satisfying the predicate. -/
theorem find?_first {α : Type} (p : α → Bool) :
    ∀ (l : List α) (a : α), l.find? p = some a →
      p a = true ∧ ∃ i, ∃ hi : i < l.length, l.get ⟨i, hi⟩ = a ∧
        ∀ j (hj : j < l.length), j < i → p (l.get ⟨j, hj⟩) = false := by
  intro l
  induction l with
  | nil => intro a ha; simp [List.find?] at ha
  | cons b bs ih =>
    intro a ha
    cases hpb : p b with
    | false =>
      rw [List.find?_cons_of_neg _ (by simp [hpb])] at ha
      obtain ⟨hpa, i, hi, hget, hfirst⟩ := ih a ha
      refine ⟨hpa, i + 1, by simpa using hi, by simpa using hget, ?_⟩
      intro j hj hji
      cases j with
      | zero => simpa using hpb
      | succ j =>
        have hj2 : j < bs.length := by simpa using hj
        simpa using hfirst j hj2 (by omega)
    | true =>
      rw [List.find?_cons_of_pos _ hpb] at ha
      obtain rfl : b = a := by simpa using ha
      exact ⟨hpb, 0, by simp, by simp, fun j hj hji => by omega⟩

/-- C3: on a replay tick with elapsed time t, the frame whose pose is
imposed is the first frame in buffer order with timestamp ≥ t: the
lookup result satisfies t ≤ timestamp, every earlier frame has
timestamp < t, and when a frame is found `replayFrame` imposes exactly
its denormalized poses on the arm and the objects; concretely, for
frames at 0, 100, 200 ms the lookup at t = 150 selects the frame at
200 ms. -/
theorem C3_replay_first_frame :
    (∀ (data : List Frame) (t : ℚ) (f : Frame), replayLookup data t = some f →
      t ≤ f.timestamp ∧
      ∃ i, ∃ hi : i < data.length, data.get ⟨i, hi⟩ = f ∧
        ∀ j (hj : j < data.length), j < i → (data.get ⟨j, hj⟩).timestamp < t) ∧
    (∀ (now : ℚ) (s : CaptchaState) (pos : Vec3) (f : Frame),
      s.isReplaying = true → s.robotArm = some pos →
      replayLookup s.recordingData (now - s.replayStartTime) = some f →
      (replayFrame now s).robotArm =
        some ⟨(denormalizeCoordinates f.robotArm.x f.robotArm.y).1, ROBOT_ARM_Y,
              (denormalizeCoordinates f.robotArm.x f.robotArm.y).2⟩ ∧
      (replayFrame now s).objects = s.objects.mapIdx fun index obj =>
        match f.objects[index]? with
        | some objState => imposeObject objState obj
        | none => obj) ∧
    replayLookup exReplayData 150 = some (exReplayFrame 200) := by
  refine ⟨?_, ?_, ?_⟩
  · intro data t f hf
    obtain ⟨hpa, i, hi, hget, hfirst⟩ := find?_first _ data f hf
    refine ⟨of_decide_eq_true hpa, i, hi, hget, ?_⟩
    intro j hj hji
    exact not_le.mp (of_decide_eq_false (hfirst j hj hji))
  · intro now s pos f h1 h2 h3
    constructor
    · simp [replayFrame, h1, h2, h3]
    · simp [replayFrame, h1, h2, h3]
  · have e0 : decide ((150 : ℚ) ≤ (exReplayFrame 0).timestamp) = false :=
      decide_eq_false (by norm_num [exReplayFrame])
    have e1 : decide ((150 : ℚ) ≤ (exReplayFrame 100).timestamp) = false :=
      decide_eq_false (by norm_num [exReplayFrame])
    have e2 : decide ((150 : ℚ) ≤ (exReplayFrame 200).timestamp) = true :=
      decide_eq_true (by norm_num [exReplayFrame])
    show List.find? _ (exReplayFrame 0 :: exReplayFrame 100 ::
      exReplayFrame 200 :: []) = some (exReplayFrame 200)
    simp only [List.find?, e0, e1, e2]

/-- Witness for C3: the general first-match property applied at the
concrete buffer with frames at 0, 100, 200 ms and elapsed 150 ms. -/
theorem C3_replay_first_frame_witness :
    replayLookup exReplayData 150 = some (exReplayFrame 200) ∧
    ((150 : ℚ) ≤ (exReplayFrame 200).timestamp ∧
      ∃ i, ∃ hi : i < exReplayData.length,
        exReplayData.get ⟨i, hi⟩ = exReplayFrame 200 ∧
        ∀ j (hj : j < exReplayData.length), j < i →
          (exReplayData.get ⟨j, hj⟩).timestamp < 150) :=
  ⟨C3_replay_first_frame.2.2,
   C3_replay_first_frame.1 exReplayData 150 (exReplayFrame 200)
     C3_replay_first_frame.2.2⟩

/-- C4: when the replayer is playing over a time-ordered non-empty
buffer and the elapsed time exceeds the last frame's timestamp, the
tick stops the replay (only lowering the replay flag — normal
termination), and afterwards every further tick leaves the state
unchanged and imposes no frame. -/
theorem C4_replay_terminates_once (now : ℚ) (s : CaptchaState) (lastF : Frame)
    (hrep : s.isReplaying = true) (harm : s.robotArm.isSome = true)
    (hlast : s.recordingData.getLast? = some lastF)
    (hord : ∀ f ∈ s.recordingData, f.timestamp ≤ lastF.timestamp)
    (helapsed : lastF.timestamp < now - s.replayStartTime) :
    replayFrame now s = stopReplay s ∧
    (stopReplay s).isReplaying = false ∧
    (∀ now2 : ℚ, replayFrame now2 (stopReplay s) = stopReplay s) ∧
    (∀ now2 : ℚ, replayImposes now2 (stopReplay s) = false) := by
  obtain ⟨pos, hpos⟩ := Option.isSome_iff_exists.mp harm
  have hnone : replayLookup s.recordingData (now - s.replayStartTime) = none := by
    unfold replayLookup
    rw [List.find?_eq_none]
    intro f hfmem
    simp only [decide_eq_true_eq]
    exact not_le.mpr (lt_of_le_of_lt (hord f hfmem) helapsed)
  refine ⟨?_, rfl, ?_, ?_⟩
  · simp [replayFrame, hrep, hpos, hnone, hlast, helapsed]
  · intro now2
    simp [replayFrame, stopReplay]
  · intro now2
    simp [replayImposes, stopReplay]

/-- Witness for C4 at a concrete replaying state over the buffer with
frames at 0, 100, 200 ms, queried at elapsed 250 ms. -/
theorem C4_replay_terminates_once_witness :
    (exReplayState.isReplaying = true ∧
     exReplayState.robotArm.isSome = true ∧
     exReplayState.recordingData.getLast? = some (exReplayFrame 200) ∧
     (∀ f ∈ exReplayState.recordingData,
       f.timestamp ≤ (exReplayFrame 200).timestamp) ∧
     (exReplayFrame 200).timestamp < 250 - exReplayState.replayStartTime) ∧
    (replayFrame 250 exReplayState = stopReplay exReplayState ∧
     (stopReplay exReplayState).isReplaying = false ∧
     (∀ now2 : ℚ, replayFrame now2 (stopReplay exReplayState) =
       stopReplay exReplayState) ∧
     (∀ now2 : ℚ, replayImposes now2 (stopReplay exReplayState) = false)) := by
  have hord : ∀ f ∈ exReplayState.recordingData,
      f.timestamp ≤ (exReplayFrame 200).timestamp := by
    intro f hf
    simp only [exReplayState, exReplayData, List.mem_cons, List.mem_singleton,
      List.not_mem_nil, or_false] at hf
    rcases hf with rfl | rfl | rfl
    · simp only [exReplayFrame]; norm_num
    · simp only [exReplayFrame]; norm_num
    · simp only [exReplayFrame]; norm_num
  have helapsed : (exReplayFrame 200).timestamp <
      250 - exReplayState.replayStartTime := by
    simp only [exReplayFrame, exReplayState, exState]
    norm_num
  exact ⟨⟨rfl, rfl, rfl, hord, helapsed⟩,
    C4_replay_terminates_once 250 exReplayState (exReplayFrame 200)
      rfl rfl rfl hord helapsed⟩

/-- The fallback grid for 3 objects is a 2 × 2 grid. -/
theorem ceilSqrt_numObjects : ceilSqrt numObjects = 2 := by
  have h : Nat.sqrt 3 = 1 := by
    symm
    rw [Nat.eq_sqrt]
    norm_num
  simp [ceilSqrt, numObjects, h]

/-- The first fallback cell. -/
theorem gridFallbackPosition_zero : gridFallbackPosition 0 = (-1.2, -1.2) := by
  simp only [gridFallbackPosition, ceilSqrt_numObjects]
  norm_num

/-- The second fallback cell. -/
theorem gridFallbackPosition_one : gridFallbackPosition 1 = (0, -1.2) := by
  simp only [gridFallbackPosition, ceilSqrt_numObjects]
  norm_num

/-- The third fallback cell. -/
theorem gridFallbackPosition_two : gridFallbackPosition 2 = (-1.2, 0) := by
  simp only [gridFallbackPosition, ceilSqrt_numObjects]
  norm_num

/-- Under the all-center oracle every sampled candidate is the origin and
is rejected by the robot-arm clearance check. -/
theorem center_candidate_invalid (occ : List OccupiedPosition) (i k : Nat) :
    isPositionValid occ (sampleCandidate (centerRand i k)).1
      (sampleCandidate (centerRand i k)).2 objectRadius = false := by
  have hc : sampleCandidate (centerRand i k) = (0, 0) := by
    simp only [sampleCandidate, centerRand]
    norm_num
  rw [hc]
  simp only [isPositionValid]
  rw [if_pos (by norm_num [robotArmRadius, objectRadius, objectSize])]

/-- When every sampled candidate is invalid, the do-while loop runs its
attempt counter all the way to `maxAttempts`. -/
theorem placementAttempts_all_invalid (rand : Nat → ℚ × ℚ)
    (occ : List OccupiedPosition) (radius : ℚ)
    (hinv : ∀ k, isPositionValid occ (sampleCandidate (rand k)).1
      (sampleCandidate (rand k)).2 radius = false) :
    ∀ fuel k, 0 < fuel → k + fuel = maxAttempts →
      (placementAttempts rand occ radius k fuel).2 = maxAttempts := by
  intro fuel
  induction fuel with
  | zero => intro k h0 _; omega
  | succ f ih =>
    intro k _ hsum
    cases hk : decide (maxAttempts ≤ k + 1) with
    | true =>
      have hk2 := of_decide_eq_true hk
      simp only [placementAttempts, hinv k, hk, Bool.false_or, if_true]
      omega
    | false =>
      have hk2 := of_decide_eq_false hk
      simp only [placementAttempts, hinv k, hk, Bool.false_or, if_false]
      exact ih (k + 1) (by omega) (by omega)

/-- When every sampled candidate is invalid, `placeObject` lands on the
grid fallback cell `occ.length`. -/
theorem placeObject_center_fallback (rand : Nat → ℚ × ℚ)
    (occ : List OccupiedPosition)
    (hinv : ∀ k, isPositionValid occ (sampleCandidate (rand k)).1
      (sampleCandidate (rand k)).2 objectRadius = false) :
    placeObject rand occ objectRadius = gridFallbackPosition occ.length := by
  have h2 := placementAttempts_all_invalid rand occ objectRadius hinv
    maxAttempts 0 (by norm_num [maxAttempts]) (by norm_num)
  simp only [placeObject, h2]
  rw [if_pos (le_refl _)]

/-- The placement produced by the all-center oracle: all three objects
fall back to the grid cells. -/
theorem initPlacement_centerRand :
    initPlacement centerRand =
      [⟨(gridFallbackPosition 0).1, (gridFallbackPosition 0).2, objectRadius⟩,
       ⟨(gridFallbackPosition 1).1, (gridFallbackPosition 1).2, objectRadius⟩,
       ⟨(gridFallbackPosition 2).1, (gridFallbackPosition 2).2, objectRadius⟩] := by
  have h0 : placeObject (centerRand 0) [] objectRadius =
      gridFallbackPosition 0 := by
    simpa using placeObject_center_fallback (centerRand 0) []
      (fun k => center_candidate_invalid [] 0 k)
  have h1 : placeObject (centerRand 1)
      [⟨(gridFallbackPosition 0).1, (gridFallbackPosition 0).2, objectRadius⟩]
      objectRadius = gridFallbackPosition 1 := by
    simpa using placeObject_center_fallback (centerRand 1)
      [⟨(gridFallbackPosition 0).1, (gridFallbackPosition 0).2, objectRadius⟩]
      (fun k => center_candidate_invalid _ 1 k)
  have h2 : placeObject (centerRand 2)
      [⟨(gridFallbackPosition 0).1, (gridFallbackPosition 0).2, objectRadius⟩,
       ⟨(gridFallbackPosition 1).1, (gridFallbackPosition 1).2, objectRadius⟩]
      objectRadius = gridFallbackPosition 2 := by
    simpa using placeObject_center_fallback (centerRand 2)
      [⟨(gridFallbackPosition 0).1, (gridFallbackPosition 0).2, objectRadius⟩,
       ⟨(gridFallbackPosition 1).1, (gridFallbackPosition 1).2, objectRadius⟩]
      (fun k => center_candidate_invalid _ 2 k)
  simp only [initPlacement, numObjects]
  rw [show List.range 3 = [0, 1, 2] from rfl]
  simp only [List.foldl_cons, List.foldl_nil, List.nil_append]
  rw [h0]
  simp only [List.singleton_append]
  rw [h1]
  simp only [List.cons_append, List.nil_append]
  rw [h2]

/-- Counterexample to C5 as stated: with a random oracle that always
draws the center, all three placements take the grid fallback, and the
fallback cells violate both the pairwise clearance and the end-effector
clearance. -/
theorem C5_clearance_counterexample :
    ¬ clearanceProp (initPlacement centerRand) := by
  rw [initPlacement_centerRand]
  intro h
  have hpair := (List.pairwise_cons.mp h.1).1 _ (List.mem_cons_self _ _)
  rw [gridFallbackPosition_zero, gridFallbackPosition_one] at hpair
  norm_num [objectRadius, objectSize] at hpair

/-- C5 (amended): every placement accepted by the rejection sampling
satisfies the clearance invariant — its center is at least the combined
clearance radii away from the end-effector and from every previously
accepted object (the code's thresholds are strictly larger than the
combined radii); the grid fallback guarantees only its fixed 1.2-unit
cell spacing, not the clearance radii. -/
theorem C5_clearance_amended :
    (∀ (occ : List OccupiedPosition) (x z radius : ℚ),
      0 ≤ radius → (∀ p ∈ occ, 0 ≤ p.radius) →
      isPositionValid occ x z radius = true →
      (robotArmRadius + radius) ^ 2 ≤ x ^ 2 + z ^ 2 ∧
      ∀ p ∈ occ, (radius + p.radius) ^ 2 ≤ (x - p.x) ^ 2 + (z - p.z) ^ 2) ∧
    (∀ i j : Nat, i < numObjects → j < numObjects → i ≠ j →
      (1.2 : ℚ) ^ 2 ≤
        ((gridFallbackPosition i).1 - (gridFallbackPosition j).1) ^ 2 +
        ((gridFallbackPosition i).2 - (gridFallbackPosition j).2) ^ 2) := by
  constructor
  · intro occ x z radius hr hocc hval
    simp only [isPositionValid] at hval
    split at hval
    · exact absurd hval (by simp)
    · rename_i hcond
      rw [not_lt] at hcond
      rw [List.all_eq_true] at hval
      constructor
      · simp only [robotArmRadius] at hcond ⊢
        nlinarith [hr]
      · intro p hp
        have h2 := hval p hp
        simp only [Bool.not_eq_eq_eq_not, Bool.not_true, decide_eq_false_iff_not,
          not_lt] at h2
        nlinarith [hr, hocc p hp, mul_nonneg hr (hocc p hp)]
  · intro i j hi hj hij
    simp only [numObjects] at hi hj
    interval_cases i <;> interval_cases j <;>
      simp_all only [ne_eq, not_true_eq_false, gridFallbackPosition_zero,
        gridFallbackPosition_one, gridFallbackPosition_two] <;>
      norm_num

/-- Witness for C5 (amended): the concrete accepted candidate (3, 0)
with the production clearance radius 0.9 against an empty scene. -/
theorem C5_clearance_amended_witness :
    ((0 : ℚ) ≤ 0.9 ∧ (∀ p ∈ ([] : List OccupiedPosition), 0 ≤ p.radius) ∧
      isPositionValid [] 3 0 0.9 = true) ∧
    ((robotArmRadius + 0.9) ^ 2 ≤ (3 : ℚ) ^ 2 + (0 : ℚ) ^ 2 ∧
      ∀ p ∈ ([] : List OccupiedPosition),
        ((0.9 : ℚ) + p.radius) ^ 2 ≤ ((3 : ℚ) - p.x) ^ 2 + ((0 : ℚ) - p.z) ^ 2) := by
  have hval : isPositionValid [] 3 0 0.9 = true := by
    simp only [isPositionValid]
    rw [if_neg (by norm_num [robotArmRadius])]
    simp
  exact ⟨⟨by norm_num, by simp, hval⟩,
    C5_clearance_amended.1 [] 3 0 0.9 (by norm_num) (by simp) hval⟩

/-- C6: on every animation tick with the physics world initialized, the
world is stepped if and only if replay is inactive; the visual sync runs
exactly on non-replay ticks; a replay pose imposition can happen only on
a replay tick; and stepping-with-sync and replay imposition never occur
in the same tick. -/
theorem C6_step_iff_not_replaying (physStep : List SceneObject → List SceneObject)
    (now : ℚ) (s : CaptchaState) (hw : s.worldPresent = true) :
    (animate physStep now s).2.stepped = !s.isReplaying ∧
    (animate physStep now s).2.synced = !s.isReplaying ∧
    ((animate physStep now s).2.imposed = true → s.isReplaying = true) ∧
    ¬((animate physStep now s).2.stepped = true ∧
      (animate physStep now s).2.imposed = true) ∧
    ¬((animate physStep now s).2.synced = true ∧
      (animate physStep now s).2.imposed = true) := by
  cases hr : s.isReplaying with
  | false =>
    simp [animate, hw, hr]
  | true =>
    refine ⟨?_, ?_, ?_, ?_, ?_⟩ <;>
      simp [animate, hw, hr, replayImposes]

/-- Witness for C6 at the concrete idle state with a world present. -/
theorem C6_step_iff_not_replaying_witness :
    exState.worldPresent = true ∧
    ((animate id 0 exState).2.stepped = !exState.isReplaying ∧
     (animate id 0 exState).2.synced = !exState.isReplaying ∧
     ((animate id 0 exState).2.imposed = true → exState.isReplaying = true) ∧
     ¬((animate id 0 exState).2.stepped = true ∧
       (animate id 0 exState).2.imposed = true) ∧
     ¬((animate id 0 exState).2.synced = true ∧
       (animate id 0 exState).2.imposed = true)) :=
  ⟨rfl, C6_step_iff_not_replaying id 0 exState rfl⟩

/-- C7: misuse calls are silent no-ops that leave the whole state
unchanged — `startRecording` while replaying, and `startReplay` with no
recording available or while recording is active. -/
theorem C7_misuse_noops (t : ℚ) (s : CaptchaState) :
    (s.isReplaying = true → startRecording t s = s) ∧
    ((s.hasRecording = false ∨ s.isRecording = true) → startReplay t s = s) := by
  constructor
  · intro h
    simp [startRecording, h]
  · intro h
    rcases h with h | h <;> simp [startReplay, h]

/-- Witness for C7: both misuse calls on concrete states. -/
theorem C7_misuse_noops_witness :
    (exReplayState.isReplaying = true ∧
      startRecording 5 exReplayState = exReplayState) ∧
    ((exState.hasRecording = false ∨ exState.isRecording = true) ∧
      startReplay 5 exState = exState) :=
  ⟨⟨rfl, (C7_misuse_noops 5 exReplayState).1 rfl⟩,
   ⟨Or.inl rfl, (C7_misuse_noops 5 exState).2 (Or.inl rfl)⟩⟩

/-- Flattening a mapped list around a distinguished element splits into
the surrounding flattened blocks. -/
theorem flatten_map_block {α β : Type} (g : α → List β) (l1 l2 : List α)
    (a : α) : ((l1 ++ a :: l2).map g).flatten =
      (l1.map g).flatten ++ g a ++ (l2.map g).flatten := by
  simp

/-- The CSV field list of a frame carries the stored rotation channels
of its i-th object contiguously, in x, y, z, w order. -/
theorem frameFields_rotation_block (f : Frame) (i : Nat) (st : FrameObject)
    (h : f.objects.get? i = some st) :
    ∃ pre post : List String, frameFields f =
      pre ++ [jsToFixed st.rotation.x 6, jsToFixed st.rotation.y 6,
        jsToFixed st.rotation.z 6, jsToFixed st.rotation.w 6] ++ post := by
  rw [List.get?_eq_getElem?] at h
  have hlen : i < f.objects.length := by
    by_contra hc
    rw [List.getElem?_eq_none (by omega)] at h
    simp at h
  have hget : f.objects[i] = st := by
    rw [List.getElem?_eq_getElem hlen] at h
    simpa using h
  obtain ⟨l1, l2, hl⟩ : ∃ l1 l2, f.objects = l1 ++ st :: l2 := by
    refine ⟨f.objects.take i, f.objects.drop (i + 1), ?_⟩
    conv_lhs => rw [← List.take_append_drop i f.objects]
    congr 1
    rw [List.drop_eq_getElem_cons hlen, hget]
  refine ⟨jsToFixed f.timestamp 3 ::
      ([jsToFixed f.robotArm.x 6, jsToFixed f.robotArm.y 6,
        jsToFixed f.robotArm.z 6] ++ (l1.map objFields).flatten ++
        [jsToFixed st.position.x 6, jsToFixed st.position.y 6,
         jsToFixed st.position.z 6]),
    (l2.map objFields).flatten, ?_⟩
  simp only [frameFields, hl, flatten_map_block, objFields]
  simp [List.append_assoc]

/-- The frame appended by `recordFixedFrame` stores, per object, the
normalized mesh position with fixed z and the mesh quaternion with its
y and z channels swapped. -/
theorem recordFixedFrame_spec (s : CaptchaState) (pos : Vec3)
    (harm : s.robotArm = some pos) :
    ∃ f : Frame, (recordFixedFrame s).recordingData.getLast? = some f ∧
      f.objects = s.objects.map fun obj =>
        (⟨⟨(normalizeCoordinates obj.meshPos.x obj.meshPos.y obj.meshPos.z).1,
           (normalizeCoordinates obj.meshPos.x obj.meshPos.y obj.meshPos.z).2,
           0.76⟩,
          ⟨obj.meshQuat.x, obj.meshQuat.z, obj.meshQuat.y,
           obj.meshQuat.w⟩⟩ : FrameObject) := by
  simp only [recordFixedFrame, harm]
  rw [List.getLast?_concat]
  exact ⟨_, rfl, rfl⟩

/-- C10: the object orientation survives the record-then-replay round
trip.  `recordFixedFrame` stores the mesh quaternion with its y and z
channels swapped; imposing the stored state during replay swaps them
back, so the quaternion written to the object's mesh and body equals the
quaternion at capture time, while the CSV row renders the stored
(swapped) channels unchanged in x, y, z, w order. -/
theorem C10_quaternion_roundtrip (s : CaptchaState) (pos : Vec3)
    (harm : s.robotArm = some pos) (i : Nat) (hi : i < s.objects.length) :
    ∃ f : Frame, (recordFixedFrame s).recordingData.getLast? = some f ∧
      ∃ st : FrameObject, f.objects.get? i = some st ∧
        st.rotation = ⟨(s.objects.get ⟨i, hi⟩).meshQuat.x,
          (s.objects.get ⟨i, hi⟩).meshQuat.z,
          (s.objects.get ⟨i, hi⟩).meshQuat.y,
          (s.objects.get ⟨i, hi⟩).meshQuat.w⟩ ∧
        (∀ o2 : SceneObject,
          (imposeObject st o2).meshQuat = (s.objects.get ⟨i, hi⟩).meshQuat ∧
          (imposeObject st o2).bodyQuat = (s.objects.get ⟨i, hi⟩).meshQuat) ∧
        ∃ pre post : List String, frameFields f =
          pre ++ [jsToFixed st.rotation.x 6, jsToFixed st.rotation.y 6,
            jsToFixed st.rotation.z 6, jsToFixed st.rotation.w 6] ++ post := by
  obtain ⟨f, hf, hfobj⟩ := recordFixedFrame_spec s pos harm
  refine ⟨f, hf, ?_⟩
  have hmem : f.objects.get? i = some
      (⟨⟨(normalizeCoordinates (s.objects.get ⟨i, hi⟩).meshPos.x
            (s.objects.get ⟨i, hi⟩).meshPos.y
            (s.objects.get ⟨i, hi⟩).meshPos.z).1,
          (normalizeCoordinates (s.objects.get ⟨i, hi⟩).meshPos.x
            (s.objects.get ⟨i, hi⟩).meshPos.y
            (s.objects.get ⟨i, hi⟩).meshPos.z).2, 0.76⟩,
        ⟨(s.objects.get ⟨i, hi⟩).meshQuat.x,
          (s.objects.get ⟨i, hi⟩).meshQuat.z,
          (s.objects.get ⟨i, hi⟩).meshQuat.y,
          (s.objects.get ⟨i, hi⟩).meshQuat.w⟩⟩ : FrameObject) := by
    rw [hfobj, List.get?_eq_getElem?, List.getElem?_map,
      List.getElem?_eq_getElem hi]
    simp [List.get_eq_getElem]
  refine ⟨_, hmem, rfl, ?_, frameFields_rotation_block f i _ hmem⟩
  intro o2
  exact ⟨rfl, rfl⟩

/-- Witness for C10 at the concrete one-object state. -/
theorem C10_quaternion_roundtrip_witness :
    (exState.robotArm = some ⟨1, 0.3, 2⟩ ∧ 0 < exState.objects.length) ∧
    (∃ f : Frame, (recordFixedFrame exState).recordingData.getLast? = some f ∧
      ∃ st : FrameObject, f.objects.get? 0 = some st ∧
        st.rotation = ⟨(exState.objects.get ⟨0, by simp [exState]⟩).meshQuat.x,
          (exState.objects.get ⟨0, by simp [exState]⟩).meshQuat.z,
          (exState.objects.get ⟨0, by simp [exState]⟩).meshQuat.y,
          (exState.objects.get ⟨0, by simp [exState]⟩).meshQuat.w⟩ ∧
        (∀ o2 : SceneObject,
          (imposeObject st o2).meshQuat =
            (exState.objects.get ⟨0, by simp [exState]⟩).meshQuat ∧
          (imposeObject st o2).bodyQuat =
            (exState.objects.get ⟨0, by simp [exState]⟩).meshQuat) ∧
        ∃ pre post : List String, frameFields f =
          pre ++ [jsToFixed st.rotation.x 6, jsToFixed st.rotation.y 6,
            jsToFixed st.rotation.z 6, jsToFixed st.rotation.w 6] ++ post) :=
  ⟨⟨rfl, by simp [exState]⟩,
   C10_quaternion_roundtrip exState ⟨1, 0.3, 2⟩ rfl 0 (by simp [exState])⟩

/-- C9 (amended): the adapter reports success to `onVerify` exactly when
the fetch succeeded with an ok response whose candidate text, uppercased,
contains "VERIFIED" but not "NOT_VERIFIED"; every thrown error — network
failure, malformed response, non-ok status — is caught and surfaced as a
failed verification, never as a crash (the outcome is total). -/
theorem C9_verification_outcome (e : Except String GeminiResponse) :
    geminiOutcome e = true ↔
      ∃ r : GeminiResponse, e = .ok r ∧ r.ok = true ∧
        strIncludes (asciiToUpper (r.candidateText.getD "")) "VERIFIED" = true ∧
        strIncludes (asciiToUpper (r.candidateText.getD ""))
          "NOT_VERIFIED" = false := by
  cases e with
  | error msg => simp [geminiOutcome]
  | ok r =>
    cases hok : r.ok with
    | false => simp [geminiOutcome, hok]
    | true => simp [geminiOutcome, hok]

/-- Witness for C9 (amended) at a concrete successful response. -/
theorem C9_verification_outcome_witness :
    geminiOutcome (.ok ⟨true, some "I say VERIFIED"⟩) = true :=
  (C9_verification_outcome (.ok ⟨true, some "I say VERIFIED"⟩)).mpr
    ⟨⟨true, some "I say VERIFIED"⟩, rfl, rfl, by decide, by decide⟩

/-- Counterexample to C9 as stated: the candidate text "verified" does
not contain the string "VERIFIED", yet the adapter reports success,
because the code uppercases the text before matching. -/
theorem C9_verification_counterexample :
    geminiOutcome (.ok ⟨true, some "verified"⟩) = true ∧
    strIncludes "verified" "VERIFIED" = false := ⟨by decide, by decide⟩

/-- The rendering `natDigitsPadded` always produces exactly `d` characters. -/
theorem natDigitsPadded_length (d : Nat) :
    ∀ n, (natDigitsPadded d n).length = d := by
  induction d with
  | zero => intro n; rfl
  | succ d ih => intro n; simp [natDigitsPadded, ih]

/-- Every character produced by `natDigitsPadded` is a decimal digit. -/
theorem natDigitsPadded_digit (d : Nat) :
    ∀ n c, c ∈ natDigitsPadded d n → ∃ m, m < 10 ∧ c = Nat.digitChar m := by
  induction d with
  | zero => intro n c hc; simp [natDigitsPadded] at hc
  | succ d ih =>
    intro n c hc
    simp only [natDigitsPadded, List.mem_append, List.mem_singleton] at hc
    rcases hc with hc | rfl
    · exact ih _ c hc
    · exact ⟨n % 10, Nat.mod_lt _ (by omega), rfl⟩

/-- A decimal digit character is never a point. -/
theorem digitChar_ne_point (m : Nat) (hm : m < 10) :
    Nat.digitChar m ≠ '.' := by
  have h : ∀ k : Fin 10, Nat.digitChar k.val ≠ '.' := by decide
  exact h ⟨m, hm⟩

/-- Every character produced by `natChars` is a decimal digit. -/
theorem natChars_digit (n : Nat) :
    ∀ c ∈ natChars n, ∃ m, m < 10 ∧ c = Nat.digitChar m := by
  induction n using Nat.strong_induction_on with
  | _ n ih =>
    intro c hc
    unfold natChars at hc
    split at hc
    · rename_i h
      exact ⟨n, h, by simpa using hc⟩
    · rename_i h
      simp only [List.mem_append, List.mem_singleton] at hc
      rcases hc with hc | rfl
      · exact ih (n / 10) (Nat.div_lt_self (by omega) (by omega)) c hc
      · exact ⟨n % 10, Nat.mod_lt _ (by omega), rfl⟩

/-- A `takeWhile` keeps exactly a satisfying block followed by a failing
element. -/
theorem takeWhile_middle (p : Char → Bool) :
    ∀ (l1 : List Char) (x : Char) (l2 : List Char),
      (∀ c ∈ l1, p c = true) → p x = false →
      (l1 ++ x :: l2).takeWhile p = l1 := by
  intro l1
  induction l1 with
  | nil =>
    intro x l2 _ hx
    simp [List.takeWhile_cons, hx]
  | cons a l ih =>
    intro x l2 hall hx
    have ha : p a = true := hall a (by simp)
    simp [List.takeWhile_cons, ha,
      ih x l2 (fun c hc => hall c (by simp [hc])) hx]

/-- The characters of a `toFixed` rendering. -/
theorem jsToFixed_data (q : ℚ) (d : Nat) :
    (jsToFixed q d).data =
      (if round (q * 10 ^ d) < 0 then ['-'] else []) ++
        natChars ((round (q * 10 ^ d)).natAbs / 10 ^ d) ++
        '.' :: natDigitsPadded d ((round (q * 10 ^ d)).natAbs % 10 ^ d) := rfl

/-- Every `toFixed` output carries a decimal point. -/
theorem hasPoint_jsToFixed (q : ℚ) (d : Nat) : hasPoint (jsToFixed q d) := by
  unfold hasPoint
  rw [jsToFixed_data]
  simp

/-- Every `toFixed` output has exactly `d` digits after its last point. -/
theorem decCount_jsToFixed (q : ℚ) (d : Nat) : decCount (jsToFixed q d) = d := by
  unfold decCount
  rw [jsToFixed_data]
  have hsplit : ((if round (q * 10 ^ d) < 0 then ['-'] else []) ++
      natChars ((round (q * 10 ^ d)).natAbs / 10 ^ d) ++
      '.' :: natDigitsPadded d ((round (q * 10 ^ d)).natAbs % 10 ^ d)).reverse =
      (natDigitsPadded d ((round (q * 10 ^ d)).natAbs % 10 ^ d)).reverse ++
        '.' :: ((if round (q * 10 ^ d) < 0 then ['-'] else []) ++
          natChars ((round (q * 10 ^ d)).natAbs / 10 ^ d)).reverse := by
    simp
  rw [hsplit, takeWhile_middle]
  · simp [natDigitsPadded_length]
  · intro c hc
    rw [List.mem_reverse] at hc
    obtain ⟨m, hm, rfl⟩ := natDigitsPadded_digit d _ c hc
    simpa using digitChar_ne_point m hm
  · decide

/-- The interleaving loop of `String.intercalate` is a left fold. -/
theorem intercalate_go_foldl (sep : String) :
    ∀ (as : List String) (acc : String),
      String.intercalate.go acc sep as =
        as.foldl (fun r a => r ++ sep ++ a) acc := by
  intro as
  induction as with
  | nil => intro acc; rfl
  | cons a as ih =>
    intro acc
    have h1 : String.intercalate.go acc sep (a :: as) =
        String.intercalate.go (acc ++ sep ++ a) sep as := rfl
    rw [h1, ih]
    simp [List.foldl_cons]

/-- The join `String.intercalate` over a nonempty list is a left fold from its
head. -/
theorem intercalate_cons (sep a : String) (as : List String) :
    String.intercalate sep (a :: as) =
      as.foldl (fun r x => r ++ sep ++ x) a := by
  have h : String.intercalate sep (a :: as) = String.intercalate.go a sep as :=
    rfl
  rw [h, intercalate_go_foldl]

/-- One CSV row equals its field list joined by commas. -/
theorem csvRowOfFrame_fields (f : Frame) :
    csvRowOfFrame f = String.intercalate "," (frameFields f) := by
  rw [show frameFields f = jsToFixed f.timestamp 3 ::
      ([jsToFixed f.robotArm.x 6, jsToFixed f.robotArm.y 6,
        jsToFixed f.robotArm.z 6] ++ (f.objects.map objFields).flatten)
      from rfl,
    intercalate_cons, List.foldl_append, List.foldl_flatten, List.foldl_map]
  rfl

/-- The CSV field blocks of the objects contribute seven fields each. -/
theorem flatten_objFields_length (objs : List FrameObject) :
    ((objs.map objFields).flatten).length = 7 * objs.length := by
  induction objs with
  | nil => rfl
  | cons o os ih =>
    simp only [List.map_cons, List.flatten_cons, List.length_append, ih,
      objFields, List.length_cons, List.length_nil]
    omega

/-- The CSV field list has 4 + 7n entries for n recorded objects. -/
theorem frameFields_length (f : Frame) :
    (frameFields f).length = 4 + 7 * f.objects.length := by
  simp only [frameFields, List.length_cons, List.length_append,
    List.length_nil, flatten_objFields_length]
  omega

/-- Every CSV field is a `toFixed` rendering with 3 or 6 decimals. -/
theorem frameFields_shape (f : Frame) :
    ∀ field ∈ frameFields f,
      ∃ q d, field = jsToFixed q d ∧ (d = 3 ∨ d = 6) := by
  intro field hf
  simp only [frameFields, List.mem_cons, List.mem_append,
    List.mem_singleton, List.not_mem_nil, or_false] at hf
  rcases hf with rfl | hf
  · exact ⟨_, 3, rfl, Or.inl rfl⟩
  rcases hf with (rfl | rfl | rfl) | hf
  · exact ⟨_, 6, rfl, Or.inr rfl⟩
  · exact ⟨_, 6, rfl, Or.inr rfl⟩
  · exact ⟨_, 6, rfl, Or.inr rfl⟩
  rw [List.mem_flatten] at hf
  obtain ⟨l, hl, hfl⟩ := hf
  rw [List.mem_map] at hl
  obtain ⟨obj, -, rfl⟩ := hl
  simp only [objFields, List.mem_cons, List.mem_singleton,
    List.not_mem_nil, or_false] at hfl
  rcases hfl with rfl | rfl | rfl | rfl | rfl | rfl | rfl <;>
    exact ⟨_, 6, rfl, Or.inr rfl⟩

set_option maxRecDepth 4000 in
/-- C8 (amended): the CSV export is the header row — with the
`RobotArm_X/Y/Z` column naming the code actually emits — followed by
exactly one comma-separated row per recorded frame, each field printed
with a decimal point and 3 to 6 fixed decimal digits (3 for the
timestamp, 6 for every pose component); for the production object count
the header text is spelled out in full. -/
theorem C8_csv_export_amended (frames : List Frame) (n : Nat) (f0 : Frame)
    (hhead : frames.head? = some f0) (hn : f0.objects.length = n)
    (hall : ∀ f ∈ frames, f.objects.length = n) :
    csvSpecProp frames n ∧
    csvHeader 3 = "Timestamp,RobotArm_X,RobotArm_Y,RobotArm_Z,Object1_Pos_X,Object1_Pos_Y,Object1_Pos_Z,Object1_Rot_X,Object1_Rot_Y,Object1_Rot_Z,Object1_Rot_W,Object2_Pos_X,Object2_Pos_Y,Object2_Pos_Z,Object2_Rot_X,Object2_Rot_Y,Object2_Rot_Z,Object2_Rot_W,Object3_Pos_X,Object3_Pos_Y,Object3_Pos_Z,Object3_Rot_X,Object3_Rot_Y,Object3_Rot_Z,Object3_Rot_W" := by
  constructor
  · unfold csvSpecProp
    constructor
    · unfold csvContent
      rw [hhead]
      simp [hn]
    · intro frame hf
      refine ⟨csvRowOfFrame_fields frame, ?_, ?_⟩
      · rw [frameFields_length, hall frame hf]
      · intro field hfield
        obtain ⟨q, d, rfl, hd⟩ := frameFields_shape frame field hfield
        refine ⟨hasPoint_jsToFixed q d, ?_, ?_⟩
        · rcases hd with rfl | rfl <;> simp [decCount_jsToFixed]
        · rcases hd with rfl | rfl <;> simp [decCount_jsToFixed]
  · decide

/-- Witness for C8 (amended) at the concrete one-frame buffer with
three objects. -/
theorem C8_csv_export_amended_witness :
    (exFrames.head? = some exFrame ∧ exFrame.objects.length = 3 ∧
      ∀ f ∈ exFrames, f.objects.length = 3) ∧
    (csvSpecProp exFrames 3 ∧
     csvHeader 3 = "Timestamp,RobotArm_X,RobotArm_Y,RobotArm_Z,Object1_Pos_X,Object1_Pos_Y,Object1_Pos_Z,Object1_Rot_X,Object1_Rot_Y,Object1_Rot_Z,Object1_Rot_W,Object2_Pos_X,Object2_Pos_Y,Object2_Pos_Z,Object2_Rot_X,Object2_Rot_Y,Object2_Rot_Z,Object2_Rot_W,Object3_Pos_X,Object3_Pos_Y,Object3_Pos_Z,Object3_Rot_X,Object3_Rot_Y,Object3_Rot_Z,Object3_Rot_W") := by
  have hall : ∀ f ∈ exFrames, f.objects.length = 3 := by
    intro f hf
    simp only [exFrames, List.mem_singleton] at hf
    subst hf
    rfl
  exact ⟨⟨rfl, rfl, hall⟩,
    C8_csv_export_amended exFrames 3 exFrame rfl rfl hall⟩

set_option maxRecDepth 4000 in
/-- Counterexample to C8 as stated: the serialized export of a concrete
one-frame buffer does not begin with the header row the claim requires —
the code writes `RobotArm_X` where the claim demands `EndEffector_X`
(the two headers differ at character index 10: 'R' versus 'E'). -/
theorem C8_csv_counterexample :
    ¬ ∃ rest : String, csvContent exFrames = specCsvHeader 3 ++ rest := by
  rintro ⟨rest, hres⟩
  have hl : csvContent exFrames =
      csvHeader 3 ++ ("\n" ++ csvRowOfFrame exFrame) := by
    rw [← String.append_assoc]
    rfl
  rw [hl] at hres
  have hdata := congrArg String.data hres
  simp only [String.data_append] at hdata
  have h1 : ((csvHeader 3).data ++
      ("\n".data ++ (csvRowOfFrame exFrame).data))[10]? = some 'R' := by
    rw [List.getElem?_append_left (by decide)]
    decide
  rw [hdata, List.getElem?_append_left (by decide)] at h1
  have h2 : (specCsvHeader 3).data[10]? = some 'E' := by decide
  rw [h2] at h1
  exact absurd h1 (by decide)
